import Mathlib

set_option maxHeartbeats 1000000

/-!
Shallow embedding of the schema-inference and normalization pipeline of
bank_parser_and_dashboard.py: value coercers (to_num, parse_date), the
header locator (find_header_row), the column mapper (pick_column), the
file classifier (detect_bank), the bank-specific adapters (parse_axis,
parse_hdfc, parse_icici, parse_fallback) and the per-file orchestrator
(parse_file).  Cells read from a spreadsheet are modelled as
Option String: none is a missing value (NaN), some s is the cell text.
Python floats are modelled as exact rationals plus signed infinities.
-/

namespace BankParser

/-- A spreadsheet cell: none models NaN, some s models the text str(x) = s. -/
abbrev Cell := Option String

/-- A raw workbook: the untyped grid of cells, row by row. -/
abbrev Sheet := List (List Cell)

/-- Characters stripped by Python str.strip with no argument (ASCII whitespace). -/
def isPyWs (c : Char) : Bool :=
  c == ' ' || c == '\t' || c == '\n' || c == '\r' || c == '\x0b' || c == '\x0c'

/-- ASCII lower-casing of one character, modelling str.lower on the ASCII range. -/
def asciiLower (c : Char) : Char :=
  if 'A' ≤ c ∧ c ≤ 'Z' then Char.ofNat (c.toNat + 32) else c

/-- Lower-case a character list. -/
def lowerL (l : List Char) : List Char := l.map asciiLower

/-- Python str.strip(): drop whitespace from both ends. -/
def stripWsL (l : List Char) : List Char :=
  ((l.dropWhile isPyWs).reverse.dropWhile isPyWs).reverse

/-- Python str.strip() at the String level. -/
def stripS (s : String) : String := ⟨stripWsL s.data⟩

/-- The Python substring operator p in l: p occurs contiguously in l. -/
def occursIn (p l : List Char) : Bool :=
  match l with
  | [] => p.isEmpty
  | c :: rest => p.isPrefixOf (c :: rest) || occursIn p rest

/-- Python str.replace(",", ""): remove every comma. -/
def removeCommas (l : List Char) : List Char := l.filter (fun c => !(c == ','))

/-- Python str.replace(ab, "") for a two-character pattern: delete every
non-overlapping occurrence, scanning left to right. -/
def removePat2 (a b : Char) : List Char → List Char
  | [] => []
  | [c] => [c]
  | c :: d :: rest =>
    if c = a ∧ d = b then removePat2 a b rest
    else c :: removePat2 a b (d :: rest)

/-- The sequential marker removal of to_num:
replace("Dr","").replace("CR","").replace("Cr",""). -/
def stripMarkers (s : List Char) : List Char :=
  removePat2 'C' 'r' (removePat2 'C' 'R' (removePat2 'D' 'r' s))

/-- The value of a Python float that to_num can produce.  NaN results are
conflated with parse failure (none) because pandas treats NaN exactly like
a missing value (isna, dropna, fillna), so the two are observationally
identical downstream. -/
inductive PyVal where
  | finite (q : ℚ)
  | posInf
  | negInf
  deriving DecidableEq

/-- Python unary minus on a float value. -/
def negVal : PyVal → PyVal
  | .finite q => .finite (-q)
  | .posInf => .negInf
  | .negInf => .posInf

/-- Numeric value of an ASCII digit. -/
def digitVal (c : Char) : Nat := c.toNat - 48

/-- Scan a digit run as accepted by Python float(): digits with single
underscores allowed only between digits.  Returns the accumulated value,
the number of digits consumed, and the unread remainder. -/
def digRunAux : List Char → Nat → Nat → Nat × Nat × List Char
  | [], acc, n => (acc, n, [])
  | c :: rest, acc, n =>
    if c.isDigit then digRunAux rest (acc * 10 + digitVal c) (n + 1)
    else if c = '_' ∧ 0 < n then
      match rest with
      | d :: rest2 =>
        if d.isDigit then digRunAux rest2 (acc * 10 + digitVal d) (n + 1)
        else (acc, n, c :: rest)
      | [] => (acc, n, c :: rest)
    else (acc, n, c :: rest)

/-- Optional sign: returns (isNegative, remainder). -/
def parseSign : List Char → Bool × List Char
  | [] => (false, [])
  | c :: rest =>
    if c = '-' then (true, rest)
    else if c = '+' then (false, rest)
    else (false, c :: rest)

/-- Exponent part of a float literal: empty, or e/E, optional sign, digits. -/
def parseExpPart : List Char → Option Int
  | [] => some 0
  | c :: rest =>
    if c = 'e' ∨ c = 'E' then
      let sr := parseSign rest
      let p := digRunAux sr.2 0 0
      if p.2.1 > 0 ∧ p.2.2 = [] then
        some (if sr.1 then -(p.1 : Int) else (p.1 : Int))
      else none
    else none

/-- Assemble the rational value of a decimal literal from the integer run
p1, the fraction run p2 and the remainder: the exponent part must parse,
at least one digit must have appeared, and the whole input must have been
consumed by the three parts. -/
def parseDecimalFin (p1 p2 : Nat × Nat × List Char) : Option ℚ :=
  match parseExpPart p2.2.2 with
  | none => none
  | some e =>
    if p1.2.1 + p2.2.1 = 0 then none
    else
      some (if e < 0 then
              mkRat ((p1.1 * 10 ^ p2.2.1 + p2.1 : ℕ) : Int) (10 ^ p2.2.1 * 10 ^ e.natAbs)
            else
              mkRat (((p1.1 * 10 ^ p2.2.1 + p2.1 : ℕ) : Int) * (10 : Int) ^ e.natAbs)
                (10 ^ p2.2.1))

/-- The fraction run after the integer run: a dot followed by digits, or
nothing. -/
def parseFracPart (r1 : List Char) : Nat × Nat × List Char :=
  match r1 with
  | c :: rest => if c = '.' then digRunAux rest 0 0 else (0, 0, c :: rest)
  | [] => (0, 0, ([] : List Char))

/-- Unsigned decimal literal accepted by Python float(): digits with an
optional dot and fraction, at least one digit overall, then an optional
exponent; the whole input must be consumed. -/
def parseDecimalQ (l : List Char) : Option ℚ :=
  parseDecimalFin (digRunAux l 0 0) (parseFracPart (digRunAux l 0 0).2.2)

/-- The part of float() after the sign: an infinity word, the word nan
(conflated with failure, see PyVal), or a decimal literal, compared on the
lower-cased remainder. -/
def pyFloatCore (sg : Bool × List Char) : Option PyVal :=
  if lowerL sg.2 = "inf".data ∨ lowerL sg.2 = "infinity".data then
    some (if sg.1 then .negInf else .posInf)
  else if lowerL sg.2 = "nan".data then none
  else
    match parseDecimalQ sg.2 with
    | some q => some (.finite (if sg.1 then -q else q))
    | none => none

/-- The Python builtin float(s) on a character list: strip whitespace, an
optional sign, then the core literal forms. -/
def pyFloatL (l : List Char) : Option PyVal :=
  pyFloatCore (parseSign (stripWsL l))

/-- One character of the set stripped by str.strip("()"). -/
def isParenC (c : Char) : Bool := c == '(' || c == ')'

/-- Python str.strip("()"): drop parenthesis characters from both ends. -/
def stripParenL (s : List Char) : List Char :=
  ((s.dropWhile isParenC).reverse.dropWhile isParenC).reverse

/-- re.fullmatch of the pattern backslash-open-paren dot-star
backslash-close-paren: first character is an opening parenthesis, last is a
closing one, and the characters between contain no newline (the regex dot
does not match a newline). -/
def parenFormB (s : List Char) : Bool :=
  match s with
  | [] => false
  | c :: rest =>
    c == '(' && !rest.isEmpty && rest.getLast? == some ')' &&
      rest.dropLast.all (fun c2 => !(c2 == '\n'))

/-- to_num from the source: NaN passes through as absent; the text is
stripped and commas removed; empty text is absent; parenthesized text is
negated after stripping parenthesis characters; otherwise the Dr/CR/Cr
markers are removed and the result parsed as a float; every failure yields
absent, never an error.  This is the body of to_num after NaN check,
stripping and comma removal. -/
def to_num_tail (s : List Char) : Option PyVal :=
  if s = [] then none
  else if parenFormB s then
    match pyFloatL (stripParenL s) with
    | some v => some (negVal v)
    | none => none
  else
    match pyFloatL (stripWsL (stripMarkers s)) with
    | some v => some v
    | none => none

/-- to_num on a cell: NaN passes through as absent, text goes through
stripping, comma removal and to_num_tail. -/
def to_num (x : Cell) : Option PyVal :=
  match x with
  | none => none
  | some s0 => to_num_tail (removeCommas (stripWsL s0.data))

example : to_num (some "1,234.50 Dr") = some (.finite (mkRat 2469 2)) := by decide
example : to_num (some "(123.45)") = some (.finite (-(mkRat 2469 20))) := by decide
example : to_num (some "(100 Dr)") = none := by decide
example : to_num (some "  ") = none := by decide
example : to_num (some "abc") = none := by decide
example : to_num (some "-12") = some (.finite (-12)) := by decide
example : to_num none = none := by decide

/-- A calendar date as produced by datetime.strptime. -/
structure PyDate where
  year : Nat
  month : Nat
  day : Nat
  deriving DecidableEq

/-- Gregorian leap year. -/
def isLeap (y : Nat) : Bool := y % 4 = 0 && (y % 100 ≠ 0 || y % 400 = 0)

/-- Days in a month, as validated by the datetime constructor. -/
def daysInMonth (y m : Nat) : Nat :=
  if m = 2 then (if isLeap y then 29 else 28)
  else if m = 4 ∨ m = 6 ∨ m = 9 ∨ m = 11 then 30
  else 31

/-- Validity check performed by datetime(year, month, day). -/
def validDate (y m d : Nat) : Bool :=
  1 ≤ y && y ≤ 9999 && 1 ≤ m && m ≤ 12 && 1 ≤ d && d ≤ daysInMonth y m

/-- A token of a strptime format string: a directive or a literal character. -/
inductive FmtTok where
  | dayTok
  | monTok
  | year4
  | year2
  | monName
  | lit (c : Char)
  deriving DecidableEq

/-- Tokenize a strptime format.  Only the directives appearing in the
source's format list are interpreted. -/
def tokenizeFmt : List Char → List FmtTok
  | '%' :: 'd' :: rest => .dayTok :: tokenizeFmt rest
  | '%' :: 'm' :: rest => .monTok :: tokenizeFmt rest
  | '%' :: 'Y' :: rest => .year4 :: tokenizeFmt rest
  | '%' :: 'y' :: rest => .year2 :: tokenizeFmt rest
  | '%' :: 'b' :: rest => .monName :: tokenizeFmt rest
  | c :: rest => .lit c :: tokenizeFmt rest
  | [] => []

/-- Candidate matches of the strptime day regex, alternatives in the
regex's order: 30-31, 10-29, 01-09, then a single digit 1-9.  Each
candidate is the day value and the unread remainder; later tokens
backtrack through this list. -/
def candDay (cs : List Char) : List (Nat × List Char) :=
  (match cs with
   | c1 :: c2 :: rest =>
     (if c1 = '3' ∧ (c2 = '0' ∨ c2 = '1') then [(30 + digitVal c2, rest)] else []) ++
     (if (c1 = '1' ∨ c1 = '2') ∧ c2.isDigit then [(10 * digitVal c1 + digitVal c2, rest)] else []) ++
     (if c1 = '0' ∧ c2.isDigit ∧ c2 ≠ '0' then [(digitVal c2, rest)] else [])
   | _ => []) ++
  (match cs with
   | c1 :: rest => if c1.isDigit ∧ c1 ≠ '0' then [(digitVal c1, rest)] else []
   | [] => [])

/-- Candidate matches of the strptime month regex: 10-12, 01-09, 1-9. -/
def candMonth (cs : List Char) : List (Nat × List Char) :=
  (match cs with
   | c1 :: c2 :: rest =>
     (if c1 = '1' ∧ (c2 = '0' ∨ c2 = '1' ∨ c2 = '2') then [(10 + digitVal c2, rest)] else []) ++
     (if c1 = '0' ∧ c2.isDigit ∧ c2 ≠ '0' then [(digitVal c2, rest)] else [])
   | _ => []) ++
  (match cs with
   | c1 :: rest => if c1.isDigit ∧ c1 ≠ '0' then [(digitVal c1, rest)] else []
   | [] => [])

/-- Candidate match of the four-digit year regex. -/
def candYear4 : List Char → List (Nat × List Char)
  | c1 :: c2 :: c3 :: c4 :: rest =>
    if c1.isDigit ∧ c2.isDigit ∧ c3.isDigit ∧ c4.isDigit then
      [(digitVal c1 * 1000 + digitVal c2 * 100 + digitVal c3 * 10 + digitVal c4, rest)]
    else []
  | _ => []

/-- Candidate match of the two-digit year regex, with the strptime pivot:
00-68 maps to 2000-2068, 69-99 to 1969-1999. -/
def candYear2 : List Char → List (Nat × List Char)
  | c1 :: c2 :: rest =>
    if c1.isDigit ∧ c2.isDigit then
      [((if 10 * digitVal c1 + digitVal c2 ≤ 68 then 2000 + 10 * digitVal c1 + digitVal c2
         else 1900 + 10 * digitVal c1 + digitVal c2), rest)]
    else []
  | _ => []

/-- Abbreviated month names recognised by the b directive. -/
def monthAbbrevs : List (Nat × List Char) :=
  [(1, "jan".data), (2, "feb".data), (3, "mar".data), (4, "apr".data),
   (5, "may".data), (6, "jun".data), (7, "jul".data), (8, "aug".data),
   (9, "sep".data), (10, "oct".data), (11, "nov".data), (12, "dec".data)]

/-- Candidate matches of the b directive: a case-insensitive abbreviated
month name. -/
def candMonName (cs : List Char) : List (Nat × List Char) :=
  monthAbbrevs.filterMap (fun mp =>
    if lowerL (cs.take 3) = mp.2 then some (mp.1, cs.drop 3) else none)

/-- Fields captured while matching a format. -/
structure DateParts where
  dayF : Option Nat
  monthF : Option Nat
  yearF : Option Nat
  deriving DecidableEq

/-- Match a token list against the input with regex-style backtracking:
for each directive the candidate list is tried in order, and the first
candidate that lets the remaining tokens match wins.  The whole input must
be consumed. -/
def matchToks : List FmtTok → List Char → DateParts → Option DateParts
  | [], cs, p => if cs.isEmpty then some p else none
  | .lit c :: ts, cs, p =>
    match cs with
    | c2 :: rest => if c2 = c then matchToks ts rest p else none
    | [] => none
  | .dayTok :: ts, cs, p =>
    (candDay cs).findSome? (fun vr => matchToks ts vr.2 ⟨some vr.1, p.monthF, p.yearF⟩)
  | .monTok :: ts, cs, p =>
    (candMonth cs).findSome? (fun vr => matchToks ts vr.2 ⟨p.dayF, some vr.1, p.yearF⟩)
  | .year4 :: ts, cs, p =>
    (candYear4 cs).findSome? (fun vr => matchToks ts vr.2 ⟨p.dayF, p.monthF, some vr.1⟩)
  | .year2 :: ts, cs, p =>
    (candYear2 cs).findSome? (fun vr => matchToks ts vr.2 ⟨p.dayF, p.monthF, some vr.1⟩)
  | .monName :: ts, cs, p =>
    (candMonName cs).findSome? (fun vr => matchToks ts vr.2 ⟨p.dayF, some vr.1, p.yearF⟩)

/-- datetime.strptime(s, fmt): match the format against the whole input,
default missing fields (year 1900, month 1, day 1), and validate the
calendar date; any failure raises ValueError, modelled as none. -/
def strptimeL (fmt : List Char) (s : List Char) : Option PyDate :=
  match matchToks (tokenizeFmt fmt) s ⟨none, none, none⟩ with
  | none => none
  | some p =>
    let y := p.yearF.getD 1900
    let m := p.monthF.getD 1
    let d := p.dayF.getD 1
    if validDate y m d then some ⟨y, m, d⟩ else none

/-- The fixed ordered format list of parse_date. -/
def dateFmts : List String :=
  ["%d,%m,%Y", "%d,%m,%y", "%d-%m-%Y", "%d-%m-%y",
   "%d/%m/%Y", "%d/%m/%y", "%d.%m.%Y", "%d.%m.%y",
   "%d %b %Y", "%d-%b-%Y", "%Y-%m-%d"]

/-- Separator normalization of parse_date: comma, dot and slash each
become a dash. -/
def normSepC (c : Char) : Char := if c = ',' ∨ c = '.' ∨ c = '/' then '-' else c

/-- Last-resort permissive parse pd.to_datetime(s, errors="coerce",
dayfirst=True).  Its full grammar is outside the scope of this
development; it is modelled as always yielding absent.  No property proved
below depends on this branch succeeding: the claims about parse_date are
decided inside the explicit format loop, and the orchestrator-level claims
treat the date coercion as an opaque-free total function. -/
def pdToDatetimeDayfirst (_s : List Char) : Option PyDate := none

/-- parse_date from the source: NaN passes through as absent; otherwise
the text is stripped, a separator-normalized copy is prepared, and the
fixed format list is tried in order; each attempt uses the original text
only when the format contains a percent-comma sequence (none does), and
the first success wins; if the loop fails, the permissive fallback runs. -/
def parse_date (x : Cell) : Option PyDate :=
  match x with
  | none => none
  | some s0 =>
    let s := stripWsL s0.data
    let sNorm := s.map normSepC
    match dateFmts.findSome? (fun fmt =>
        strptimeL fmt.data (if occursIn "%,".data fmt.data then s else sNorm)) with
    | some d => some d
    | none => pdToDatetimeDayfirst s

example : parse_date (some "31,12,2023") = some ⟨2023, 12, 31⟩ := by decide
example : parse_date (some "2023-12-31") = some ⟨2023, 12, 31⟩ := by decide
example : parse_date (some "31 Dec 2023") = some ⟨2023, 12, 31⟩ := by decide
example : parse_date (some "29.02.2023") = none := by decide
example : parse_date (some "not a date") = none := by decide
example : parse_date (some "01/01/2024") = some ⟨2024, 1, 1⟩ := by decide

/-- detect_bank from the source: case-insensitive substring rules over the
file name, first match winning. -/
def detect_bank (fileName : String) : String :=
  let name := lowerL fileName.data
  if occursIn "optransactionhistory".data name ∨ occursIn "icici".data name then "ICICI"
  else if occursIn "918010053388907".data name ∨ occursIn "axis".data name then "AXIS"
  else if occursIn "3895".data name then "HDFC1"
  else if occursIn "7671".data name then "HDFC2"
  else "UNKNOWN"

example : detect_bank "OpTransactionHistory123.xlsx" = "ICICI" := by decide
example : detect_bank "Acct_3895_stmt.xlsx" = "HDFC1" := by decide
example : detect_bank "statement.xlsx" = "UNKNOWN" := by decide

/-- ensure_xlsx from the source: when os.path.splitext yields a .xls
extension (case-insensitive, and only when some non-dot character comes
before it, per the splitext leading-dot rule), the file is re-saved and
the path with extension .xlsx is used from then on; file names are assumed
to be bare names without directory separators. -/
def ensure_xlsx (path : String) : String :=
  let l := path.data
  let n := l.length
  if 4 ≤ n ∧ lowerL (l.drop (n - 4)) = ".xls".data ∧ (l.take (n - 4)).any (fun c => !(c == '.')) then
    ⟨l.take (n - 4) ++ ".xlsx".data⟩
  else path

example : ensure_xlsx "Stmt_AXIS.XLS" = "Stmt_AXIS.xlsx" := by decide
example : ensure_xlsx "stmt.xlsx" = "stmt.xlsx" := by decide
example : ensure_xlsx ".xls" = ".xls" := by decide

/-- Index of the first element satisfying p, rendering a Python for-loop
with an early return of the loop index. -/
def firstIdx {α : Type} (p : α → Bool) : List α → Option Nat
  | [] => none
  | a :: l => if p a then some 0 else (firstIdx p l).map (· + 1)

/-- The text pandas shows for a cell after astype(str): NaN prints as nan. -/
def cellStr : Cell → String
  | none => "nan"
  | some s => s

/-- A row qualifies as a header row when every keyword occurs as a
substring of at least one lower-cased cell of the row. -/
def rowQualifies (keywords : List String) (row : List Cell) : Bool :=
  keywords.all (fun k => row.any (fun c => occursIn k.data (lowerL (cellStr c).data)))

/-- find_header_row from the source: read at most searchRows rows and
return the index of the first qualifying row, or none. -/
def find_header_row (sheet : Sheet) (keywords : List String) (searchRows : Nat := 60) : Option Nat :=
  firstIdx (rowQualifies keywords) (sheet.take searchRows)

/-- pick_column from the source: column labels are stripped; synonyms are
tried in order and, for each synonym, the first stripped label whose
lower-cased form contains the synonym is returned. -/
def pick_column (columns : List String) (options : List String) : Option String :=
  options.findSome? (fun opt =>
    (columns.map stripS).find? (fun c => occursIn opt.data (lowerL c.data)))

example : pick_column ["Txn Date", "Value Date"] ["date"] = some "Txn Date" := by decide
example : pick_column ["S No.", "Value Date", "Transaction Date"] ["transaction date", "date"]
    = some "Transaction Date" := by decide
example : pick_column ["foo", "bar"] ["date"] = none := by decide

/-- The Python expression (o or d) on an optional row index: None and the
integer 0 are both falsy, so the default replaces them; any other index
passes through. -/
def pyOrNat (o : Option Nat) (d : Nat) : Nat :=
  match o with
  | none => d
  | some i => if i = 0 then d else i

/-- A frame as produced by pd.read_excel with a header row: the column
labels and the data rows. -/
structure Frame where
  header : List String
  rows : List (List Cell)
  deriving DecidableEq

/-- The column label pandas derives from a header cell: the cell text, or
an Unnamed label for a NaN cell at the given position. -/
def labelOf (i : Nat) (c : Cell) : String :=
  match c with
  | none => "Unnamed: " ++ toString i
  | some s => s

/-- pd.read_excel(path, header=hdr): the row at index hdr supplies the
column labels and the rows after it are the data; a header index beyond
the data raises, modelled as an error. -/
def readWithHeaderE (sheet : Sheet) (hdr : Nat) : Except String Frame :=
  if hdr < sheet.length then
    .ok ⟨(sheet.getD hdr []).mapIdx labelOf, sheet.drop (hdr + 1)⟩
  else .error "ValueError: header row index beyond the data"

/-- pd.read_excel(path) with the default header row 0, as used by the
fallback adapter; an empty sheet yields an empty frame. -/
def readSheetDefault (sheet : Sheet) : Frame :=
  ⟨(sheet.getD 0 []).mapIdx labelOf, sheet.drop 1⟩

/-- df.get(label): none for a missing key, otherwise the column of values
under the first exactly matching label, short rows padded with NaN. -/
def getCol (df : Frame) (lbl : Option String) : Option (List Cell) :=
  match lbl with
  | none => none
  | some l =>
    match firstIdx (fun h => h == l) df.header with
    | none => none
    | some i => some (df.rows.map (fun r => r.getD i none))

/-- One row of the canonical six-field frame an adapter builds, before
value coercion. -/
structure RawTx where
  dateC : Cell
  descC : Cell
  refC : Cell
  debitC : Cell
  creditC : Cell
  balanceC : Cell
  deriving DecidableEq

/-- The cell a resolved-or-missing column contributes at row i: a missing
column is the scalar None, broadcast to NaN. -/
def colVal (c : Option (List Cell)) (i : Nat) : Cell :=
  match c with
  | none => none
  | some l => l.getD i none

/-- The pd.DataFrame constructor applied to the six get results: when
every value is the scalar None it raises ValueError (all scalar values,
no index); otherwise the first present column fixes the row count and the
missing fields broadcast to NaN. -/
def mkCanonFrame (c1 c2 c3 c4 c5 c6 : Option (List Cell)) : Except String (List RawTx) :=
  match [c1, c2, c3, c4, c5, c6].findSome? id with
  | none => .error "ValueError: If using all scalar values, you must pass an index"
  | some firstCol =>
    .ok ((List.range firstCol.length).map (fun i =>
      ⟨colVal c1 i, colVal c2 i, colVal c3 i, colVal c4 i, colVal c5 i, colVal c6 i⟩))

/-- Header keyword set of the AXIS adapter. -/
def axisKeywords : List String := ["tran date", "particulars", "dr", "cr", "bal"]

/-- Header keyword set of the HDFC adapter. -/
def hdfcKeywords : List String := ["date", "narration", "withdrawal", "deposit", "balance"]

/-- Header keyword set of the ICICI adapter. -/
def iciciKeywords : List String := ["transaction date", "transaction remarks", "withdrawal", "deposit", "balance"]

/-- The header row index the AXIS adapter reads with:
find_header_row(...) or 0. -/
def parse_axis_hdr (sheet : Sheet) : Nat :=
  pyOrNat (find_header_row sheet axisKeywords 80) 0

/-- The header row index the HDFC adapter reads with:
find_header_row(...) or 20. -/
def parse_hdfc_hdr (sheet : Sheet) : Nat :=
  pyOrNat (find_header_row sheet hdfcKeywords 80) 20

/-- The header row index the ICICI adapter reads with:
find_header_row(...) or 12. -/
def parse_icici_hdr (sheet : Sheet) : Nat :=
  pyOrNat (find_header_row sheet iciciKeywords 80) 12

/-- parse_axis from the source. -/
def parse_axis (sheet : Sheet) : Except String (List RawTx) := do
  let df ← readWithHeaderE sheet (parse_axis_hdr sheet)
  mkCanonFrame
    (getCol df (pick_column df.header ["tran date", "date"]))
    (getCol df (pick_column df.header ["particulars", "description"]))
    (getCol df (pick_column df.header ["chq", "ref"]))
    (getCol df (pick_column df.header ["dr", "debit", "withdrawal"]))
    (getCol df (pick_column df.header ["cr", "credit", "deposit"]))
    (getCol df (pick_column df.header ["bal", "balance"]))

/-- parse_hdfc from the source. -/
def parse_hdfc (sheet : Sheet) : Except String (List RawTx) := do
  let df ← readWithHeaderE sheet (parse_hdfc_hdr sheet)
  mkCanonFrame
    (getCol df (pick_column df.header ["date"]))
    (getCol df (pick_column df.header ["narration", "description"]))
    (getCol df (pick_column df.header ["ref", "cheque"]))
    (getCol df (pick_column df.header ["withdrawal", "debit"]))
    (getCol df (pick_column df.header ["deposit", "credit"]))
    (getCol df (pick_column df.header ["balance"]))

/-- parse_icici from the source. -/
def parse_icici (sheet : Sheet) : Except String (List RawTx) := do
  let df ← readWithHeaderE sheet (parse_icici_hdr sheet)
  mkCanonFrame
    (getCol df (pick_column df.header ["transaction date", "date"]))
    (getCol df (pick_column df.header ["transaction remarks", "description", "particulars"]))
    (getCol df (pick_column df.header ["cheque", "ref"]))
    (getCol df (pick_column df.header ["withdrawal", "debit"]))
    (getCol df (pick_column df.header ["deposit", "credit"]))
    (getCol df (pick_column df.header ["balance"]))

/-- The six column resolutions of the fallback adapter, over the sheet's
own first row as header. -/
def fbDateCol (sheet : Sheet) : Option (List Cell) :=
  getCol (readSheetDefault sheet) (pick_column (readSheetDefault sheet).header ["date"])

/-- Fallback resolution of the Description field. -/
def fbDescCol (sheet : Sheet) : Option (List Cell) :=
  getCol (readSheetDefault sheet) (pick_column (readSheetDefault sheet).header ["description", "narration", "remarks"])

/-- Fallback resolution of the Ref field. -/
def fbRefCol (sheet : Sheet) : Option (List Cell) :=
  getCol (readSheetDefault sheet) (pick_column (readSheetDefault sheet).header ["ref", "chq"])

/-- Fallback resolution of the Debit field. -/
def fbDebitCol (sheet : Sheet) : Option (List Cell) :=
  getCol (readSheetDefault sheet) (pick_column (readSheetDefault sheet).header ["debit", "withdrawal"])

/-- Fallback resolution of the Credit field. -/
def fbCreditCol (sheet : Sheet) : Option (List Cell) :=
  getCol (readSheetDefault sheet) (pick_column (readSheetDefault sheet).header ["credit", "deposit"])

/-- Fallback resolution of the Balance field. -/
def fbBalanceCol (sheet : Sheet) : Option (List Cell) :=
  getCol (readSheetDefault sheet) (pick_column (readSheetDefault sheet).header ["balance"])

/-- parse_fallback from the source: the sheet's first row is the header
and a broad synonym list resolves each canonical field; the result is the
pd.DataFrame constructor applied to the six resolutions. -/
def parse_fallback (sheet : Sheet) (_bank : String) : Except String (List RawTx) :=
  mkCanonFrame (fbDateCol sheet) (fbDescCol sheet) (fbRefCol sheet)
    (fbDebitCol sheet) (fbCreditCol sheet) (fbBalanceCol sheet)

/-- One canonical transaction after value coercion and bank stamping. -/
structure TxRow where
  date : Option PyDate
  description : Cell
  ref : Cell
  debit : Option PyVal
  credit : Option PyVal
  balance : Option PyVal
  bank : String
  deriving DecidableEq

/-- The per-file log entry parse_file appends. -/
structure LogEntry where
  file : String
  bank : String
  rowsParsed : Nat
  rowsDropped : Nat
  deriving DecidableEq

/-- Coercion and bank stamping of one adapter row, as done by the
column-wise apply calls of parse_file. -/
def coerceRow (bank : String) (r : RawTx) : TxRow :=
  ⟨parse_date r.dateC, r.descC, r.refC, to_num r.debitC, to_num r.creditC, to_num r.balanceC, bank⟩

/-- The adapter dispatch of parse_file, with the except clause: the
bank-specific adapter is tried first and any error is recovered by the
fallback adapter, whose own error (if any) propagates. -/
def adapterResult (bank : String) (sheet : Sheet) : Except String (List RawTx) :=
  match (if bank = "AXIS" then parse_axis sheet
         else if bank = "HDFC1" ∨ bank = "HDFC2" then parse_hdfc sheet
         else if bank = "ICICI" then parse_icici sheet
         else parse_fallback sheet bank) with
  | .ok df => .ok df
  | .error _ => parse_fallback sheet bank

/-- The body of parse_file after the path and bank are fixed: run the
adapter dispatch, coerce Date, Debit, Credit and Balance, stamp the bank,
drop the rows whose Date coerced to absent, and log the counts. -/
def parse_file_core (path bank : String) (sheet : Sheet) : Except String (List TxRow × LogEntry) :=
  match adapterResult bank sheet with
  | .error e => .error e
  | .ok df =>
    let coerced := df.map (coerceRow bank)
    let kept := coerced.filter (fun r => r.date.isSome)
    .ok (kept, ⟨path, bank, kept.length, coerced.length - kept.length⟩)

/-- parse_file from the source: the path is normalized by ensure_xlsx,
the bank is classified once from the resulting file name, and the core
runs with that classification. -/
def parse_file (path : String) (sheet : Sheet) : Except String (List TxRow × LogEntry) :=
  parse_file_core (ensure_xlsx path) (detect_bank (ensure_xlsx path)) sheet

/-- An ICICI statement whose real header sits at row 1 under one noise
row, with one transaction row and one footer row without a usable date. -/
def iciciSheet : Sheet :=
  [[some "ICICI Bank Statement", none, none, none, none, none],
   [some "Transaction Date", some "Transaction Remarks", some "Cheque Number",
    some "Withdrawal Amount", some "Deposit Amount", some "Balance"],
   [some "01/01/2024", some "UPI PAYMENT", some "CHQ1", some "250.00", some "", some "750.00"],
   [some "Total", some "", some "", some "250.00", some "", some ""]]

/-- The single retained row of the ICICI example. -/
def iciciRow : TxRow :=
  ⟨some ⟨2024, 1, 1⟩, some "UPI PAYMENT", some "CHQ1",
   some (.finite 250), none, some (.finite 750), "ICICI"⟩

/-- The log entry of the ICICI example. -/
def iciciLog : LogEntry := ⟨"icici_statement.xlsx", "ICICI", 1, 1⟩

example : find_header_row iciciSheet iciciKeywords 80 = some 1 := by decide
example : parse_file "icici_statement.xlsx" iciciSheet = .ok ([iciciRow], iciciLog) := rfl

/-- The Boolean substring test agrees with the contiguous-sublist
relation: occursIn models the Python in operator on strings. -/
theorem occursIn_iff (p : List Char) : ∀ l : List Char, occursIn p l = true ↔ p <:+: l := by
  intro l
  induction l with
  | nil => simp [occursIn, List.isEmpty_iff, List.infix_nil]
  | cons c rest ih =>
    simp [occursIn, List.isPrefixOf_iff_prefix, List.infix_cons_iff, ih]

/-- firstIdx returns none exactly when no element satisfies the test. -/
theorem firstIdx_eq_none_iff {α : Type} (p : α → Bool) :
    ∀ l : List α, firstIdx p l = none ↔ ∀ j, ∀ hj : j < l.length, p (l.get ⟨j, hj⟩) = false := by
  intro l
  induction l with
  | nil => simp [firstIdx]
  | cons a l ih =>
    by_cases hpa : p a = true
    · simp only [firstIdx, hpa, if_true]
      constructor
      · intro h; exact absurd h (by simp)
      · intro h
        have h0 := h 0 (Nat.succ_pos _)
        rw [List.get] at h0
        rw [hpa] at h0
        exact absurd h0 (by simp)
    · have hpf : p a = false := by simpa using hpa
      simp only [firstIdx, hpf, Bool.false_eq_true, if_false, Option.map_eq_none']
      rw [ih]
      constructor
      · intro h j hj
        match j, hj with
        | 0, _ => exact hpf
        | j + 1, hj => exact h j (Nat.lt_of_succ_lt_succ hj)
      · intro h j hj
        exact h (j + 1) (Nat.succ_lt_succ hj)

/-- firstIdx returns some i exactly when element i satisfies the test and
no earlier element does. -/
theorem firstIdx_eq_some_iff {α : Type} (p : α → Bool) :
    ∀ (l : List α) (i : Nat), firstIdx p l = some i ↔
      ∃ h : i < l.length, p (l.get ⟨i, h⟩) = true ∧
        ∀ j, ∀ hj : j < l.length, j < i → p (l.get ⟨j, hj⟩) = false := by
  intro l
  induction l with
  | nil => intro i; simp [firstIdx]
  | cons a l ih =>
    intro i
    by_cases hpa : p a = true
    · simp only [firstIdx, hpa, if_true]
      constructor
      · intro h
        injection h with h
        subst h
        exact ⟨Nat.succ_pos _, hpa, fun j hj hji => absurd hji (Nat.not_lt_zero j)⟩
      · rintro ⟨h, _, hmin⟩
        cases i with
        | zero => rfl
        | succ i =>
          have h0 := hmin 0 (Nat.succ_pos _) (Nat.succ_pos _)
          rw [List.get] at h0
          rw [hpa] at h0
          exact absurd h0 (by simp)
    · have hpf : p a = false := by simpa using hpa
      simp only [firstIdx, hpf, Bool.false_eq_true, if_false]
      cases i with
      | zero =>
        constructor
        · intro h
          rcases Option.map_eq_some'.1 h with ⟨k, _, hk⟩
          exact absurd hk (by simp)
        · rintro ⟨h, hq, _⟩
          rw [List.get] at hq
          rw [hpf] at hq
          exact absurd hq (by simp)
      | succ i =>
        constructor
        · intro h
          rcases Option.map_eq_some'.1 h with ⟨k, hk, hk2⟩
          have hki : k = i := by omega
          subst hki
          rcases (ih k).1 hk with ⟨hlen, hq, hmin⟩
          refine ⟨Nat.succ_lt_succ hlen, hq, ?_⟩
          intro j hj hji
          match j, hj with
          | 0, _ => exact hpf
          | j + 1, hj =>
            exact hmin j (Nat.lt_of_succ_lt_succ hj) (Nat.lt_of_succ_lt_succ hji)
        · rintro ⟨h, hq, hmin⟩
          have hrec : firstIdx p l = some i := by
            refine (ih i).2 ⟨Nat.lt_of_succ_lt_succ h, hq, ?_⟩
            intro j hj hji
            exact hmin (j + 1) (Nat.succ_lt_succ hj) (Nat.succ_lt_succ hji)
          rw [hrec]
          rfl

/-- findSome? returns some b exactly when some element maps to b and all
elements before it map to none. -/
theorem findSome?_eq_some_iff_idx {α β : Type} (f : α → Option β) :
    ∀ (l : List α) (b : β), l.findSome? f = some b ↔
      ∃ j, ∃ hj : j < l.length, f (l.get ⟨j, hj⟩) = some b ∧
        ∀ k, ∀ hk : k < l.length, k < j → f (l.get ⟨k, hk⟩) = none := by
  intro l
  induction l with
  | nil => intro b; simp
  | cons a l ih =>
    intro b
    rw [List.findSome?_cons]
    cases hfa : f a with
    | some v =>
      constructor
      · intro h
        injection h with h
        subst h
        exact ⟨0, Nat.succ_pos _, hfa, fun k hk hk0 => absurd hk0 (Nat.not_lt_zero k)⟩
      · rintro ⟨j, hj, hfj, hmin⟩
        cases j with
        | zero =>
          rw [List.get] at hfj
          rw [hfa] at hfj
          injection hfj with hfj
          rw [hfj]
        | succ j =>
          have h0 := hmin 0 (Nat.succ_pos _) (Nat.succ_pos _)
          rw [List.get] at h0
          rw [hfa] at h0
          exact absurd h0 (by simp)
    | none =>
      rw [ih]
      constructor
      · rintro ⟨j, hj, hfj, hmin⟩
        refine ⟨j + 1, Nat.succ_lt_succ hj, hfj, ?_⟩
        intro k hk hkj
        match k, hk with
        | 0, _ => exact hfa
        | k + 1, hk =>
          exact hmin k (Nat.lt_of_succ_lt_succ hk) (Nat.lt_of_succ_lt_succ hkj)
      · rintro ⟨j, hj, hfj, hmin⟩
        cases j with
        | zero =>
          rw [List.get] at hfj
          rw [hfa] at hfj
          exact absurd hfj (by simp)
        | succ j =>
          refine ⟨j, Nat.lt_of_succ_lt_succ hj, hfj, ?_⟩
          intro k hk hkj
          exact hmin (k + 1) (Nat.succ_lt_succ hk) (Nat.succ_lt_succ hkj)

/-- Propositional form of one synonym matching one column label: the
synonym occurs inside the trimmed, lower-cased label. -/
def OptMatches (opt col : String) : Prop :=
  opt.data <:+: lowerL (stripS col).data

instance (opt col : String) : Decidable (OptMatches opt col) := by
  unfold OptMatches
  infer_instance

/-- The Boolean test used by pick_column agrees with OptMatches. -/
theorem occursIn_stripS_iff (opt col : String) :
    occursIn opt.data (lowerL (stripS col).data) = true ↔ OptMatches opt col :=
  occursIn_iff opt.data (lowerL (stripS col).data)

/-- Propositional form of a header row qualifying: every keyword occurs
inside at least one lower-cased cell of the row. -/
def RowHasKeywords (keywords : List String) (row : List Cell) : Prop :=
  ∀ k ∈ keywords, ∃ c ∈ row, k.data <:+: lowerL (cellStr c).data

instance (keywords : List String) (row : List Cell) : Decidable (RowHasKeywords keywords row) := by
  unfold RowHasKeywords
  infer_instance

/-- The Boolean row test of find_header_row agrees with RowHasKeywords. -/
theorem rowQualifies_iff (keywords : List String) (row : List Cell) :
    rowQualifies keywords row = true ↔ RowHasKeywords keywords row := by
  unfold rowQualifies RowHasKeywords
  simp only [List.all_eq_true, List.any_eq_true]
  constructor
  · intro h k hk
    rcases h k hk with ⟨c, hc, hocc⟩
    exact ⟨c, hc, (occursIn_iff _ _).1 hocc⟩
  · intro h k hk
    rcases h k hk with ⟨c, hc, hocc⟩
    exact ⟨c, hc, (occursIn_iff _ _).2 hocc⟩

/-- A sheet with three noise rows, the real HDFC-style header at row 3,
and one data row. -/
def hdrExampleSheet : Sheet :=
  [[some "HDFC Bank Ltd.", none],
   [some "Statement of account", none],
   [none, none],
   [some "Date", some "Narration", some "Chq./Ref.No.", some "Withdrawal Amt.",
    some "Deposit Amt.", some "Closing Balance"],
   [some "01/01/2024", some "POS PURCHASE", some "REF9", some "50.00", some "", some "700.00"]]

/-- C5: find_header_row scans the first searchRows rows and returns the
index of the first row in which every keyword occurs as a substring of at
least one lower-cased cell, or none when no row within the limit
qualifies; in particular, on a sheet whose only qualifying row for the
HDFC keyword set is row 3, it returns 3 regardless of rows 0 to 2. -/
theorem find_header_row_spec (sheet : Sheet) (keywords : List String) (n : Nat) :
    (∀ i, find_header_row sheet keywords n = some i ↔
      ∃ h : i < sheet.length, i < n ∧ RowHasKeywords keywords (sheet.get ⟨i, h⟩) ∧
        ∀ j, ∀ hj : j < sheet.length, j < i →
          ¬ RowHasKeywords keywords (sheet.get ⟨j, hj⟩)) ∧
    (find_header_row sheet keywords n = none ↔
      ∀ j, ∀ hj : j < sheet.length, j < n →
        ¬ RowHasKeywords keywords (sheet.get ⟨j, hj⟩)) ∧
    find_header_row hdrExampleSheet hdfcKeywords 60 = some 3 := by
  refine ⟨?_, ?_, by decide⟩
  · intro i
    unfold find_header_row
    rw [firstIdx_eq_some_iff]
    constructor
    · rintro ⟨h, hq, hmin⟩
      have hlen : i < min n sheet.length := by
        have := h
        rwa [List.length_take] at this
      have hin : i < n := lt_of_lt_of_le hlen (Nat.min_le_left _ _)
      have his : i < sheet.length := lt_of_lt_of_le hlen (Nat.min_le_right _ _)
      refine ⟨his, hin, ?_, ?_⟩
      · rw [← rowQualifies_iff]
        rw [← hq]
        congr 1
        simp [List.get_eq_getElem, List.getElem_take]
      · intro j hj hji hcontra
        have hj2 : j < (sheet.take n).length := by
          rw [List.length_take]
          omega
        have := hmin j hj2 hji
        rw [show (sheet.take n).get ⟨j, hj2⟩ = sheet.get ⟨j, hj⟩ by
          simp [List.get_eq_getElem, List.getElem_take]] at this
        rw [(rowQualifies_iff _ _).2 hcontra] at this
        exact absurd this (by simp)
    · rintro ⟨his, hin, hq, hmin⟩
      have h2 : i < (sheet.take n).length := by
        rw [List.length_take]
        omega
      refine ⟨h2, ?_, ?_⟩
      · rw [show (sheet.take n).get ⟨i, h2⟩ = sheet.get ⟨i, his⟩ by
          simp [List.get_eq_getElem, List.getElem_take]]
        exact (rowQualifies_iff _ _).2 hq
      · intro j hj hji
        have hjs : j < sheet.length := by
          rw [List.length_take] at hj
          omega
        rw [show (sheet.take n).get ⟨j, hj⟩ = sheet.get ⟨j, hjs⟩ by
          simp [List.get_eq_getElem, List.getElem_take]]
        rcases Bool.eq_false_or_eq_true (rowQualifies keywords (sheet.get ⟨j, hjs⟩)) with ht | hf
        · exact absurd ((rowQualifies_iff _ _).1 ht) (hmin j hjs hji)
        · exact hf
  · unfold find_header_row
    rw [firstIdx_eq_none_iff]
    constructor
    · intro h j hj hjn hcontra
      have hj2 : j < (sheet.take n).length := by
        rw [List.length_take]
        omega
      have := h j hj2
      rw [show (sheet.take n).get ⟨j, hj2⟩ = sheet.get ⟨j, hj⟩ by
        simp [List.get_eq_getElem, List.getElem_take]] at this
      rw [(rowQualifies_iff _ _).2 hcontra] at this
      exact absurd this (by simp)
    · intro h j hj
      have hjs : j < sheet.length := by
        rw [List.length_take] at hj
        omega
      have hjn : j < n := by
        rw [List.length_take] at hj
        omega
      rw [show (sheet.take n).get ⟨j, hj⟩ = sheet.get ⟨j, hjs⟩ by
        simp [List.get_eq_getElem, List.getElem_take]]
      rcases Bool.eq_false_or_eq_true (rowQualifies keywords (sheet.get ⟨j, hjs⟩)) with ht | hf
      · exact absurd ((rowQualifies_iff _ _).1 ht) (h j hjs hjn)
      · exact hf

/-- C4: pick_column tries synonyms in priority order and, for each
synonym, scans columns left to right, returning the trimmed label of the
first column whose trimmed lower-cased form contains the synonym; an
earlier synonym always wins over a later one, and none is returned exactly
when no synonym matches any column; in particular over the columns
Txn Date and Value Date with the synonym date it returns Txn Date. -/
theorem pick_column_spec (columns options : List String) :
    (pick_column columns options = none ↔
      ∀ o ∈ options, ∀ c ∈ columns, ¬ OptMatches o c) ∧
    (∀ res, pick_column columns options = some res →
      ∃ j, ∃ hj : j < options.length, ∃ i, ∃ hi : i < columns.length,
        res = stripS (columns.get ⟨i, hi⟩) ∧
        OptMatches (options.get ⟨j, hj⟩) (columns.get ⟨i, hi⟩) ∧
        (∀ jp, ∀ hjp : jp < options.length, jp < j →
          ∀ c ∈ columns, ¬ OptMatches (options.get ⟨jp, hjp⟩) c) ∧
        (∀ ip, ∀ hip : ip < columns.length, ip < i →
          ¬ OptMatches (options.get ⟨j, hj⟩) (columns.get ⟨ip, hip⟩))) ∧
    pick_column ["Txn Date", "Value Date"] ["date"] = some "Txn Date" := by
  have hmatch : ∀ (o c : String),
      (occursIn o.data (lowerL (stripS c).data) = true) ↔ OptMatches o c :=
    fun o c => occursIn_iff o.data (lowerL (stripS c).data)
  have hnone : ∀ o : String,
      ((columns.map stripS).find? (fun c => occursIn o.data (lowerL c.data)) = none ↔
        ∀ c ∈ columns, ¬ OptMatches o c) := by
    intro o
    rw [List.find?_eq_none]
    constructor
    · intro h c hc hcontra
      have hm : stripS c ∈ columns.map stripS := List.mem_map_of_mem _ hc
      exact absurd ((hmatch o c).2 hcontra) (h _ hm)
    · intro h c hc
      rcases List.mem_map.1 hc with ⟨c0, hc0, rfl⟩
      intro hcontra
      exact absurd ((hmatch o c0).1 hcontra) (h c0 hc0)
  refine ⟨?_, ?_, by decide⟩
  · unfold pick_column
    rw [List.findSome?_eq_none_iff]
    constructor
    · intro h o ho
      exact (hnone o).1 (h o ho)
    · intro h o ho
      exact (hnone o).2 (h o ho)
  · intro res hres
    unfold pick_column at hres
    rcases (findSome?_eq_some_iff_idx _ options res).1 hres with ⟨j, hj, hfj, hjmin⟩
    rcases List.find?_eq_some_iff_getElem.1 hfj with ⟨hp, i, hi, hix, himin⟩
    rw [List.length_map] at hi
    refine ⟨j, hj, i, hi, ?_, ?_, ?_, ?_⟩
    · rw [← hix]
      simp [List.get_eq_getElem, List.getElem_map]
    · have : (columns.map stripS)[i] = stripS (columns.get ⟨i, hi⟩) := by
        simp [List.get_eq_getElem, List.getElem_map]
      rw [this] at hix
      rw [← hix] at hp
      exact (hmatch _ _).1 hp
    · intro jp hjp hjpj c hc
      exact (hnone _).1 (hjmin jp hjp hjpj) c hc
    · intro ip hip hipi hcontra
      have h2 := himin ip hipi
      simp only [Bool.not_eq_eq_eq_not, Bool.not_true, List.getElem_map] at h2
      have ht := (hmatch _ _).2 hcontra
      simp only [List.get_eq_getElem] at ht h2
      rw [ht] at h2
      exact absurd h2 (by simp)

/-- An HDFC-named statement whose qualifying header row is row 0. -/
def hdfcRow0Sheet : Sheet :=
  [[some "Date", some "Narration", some "Chq./Ref.No.", some "Withdrawal Amt.",
    some "Deposit Amt.", some "Closing Balance"],
   [some "01/01/2024", some "UPI-PAYMENT", some "REF1", some "100.00", some "", some "900.00"]]

/-- An ICICI-named statement whose qualifying header row is row 0. -/
def iciciRow0Sheet : Sheet :=
  [[some "Transaction Date", some "Transaction Remarks", some "Withdrawal Amount",
    some "Deposit Amount", some "Balance"],
   [some "02/01/2024", some "NEFT", some "", some "500.00", some "1400.00"]]

/-- C1 (the code violates the claim): when header detection succeeds at
row index 0, the HDFC and ICICI adapters nevertheless re-read the sheet at
their default rows 20 and 12, because the Python expression
(find_header_row(...) or default) treats the integer 0 as falsy. -/
theorem header_detected_at_zero_uses_default :
    find_header_row hdfcRow0Sheet hdfcKeywords 80 = some 0 ∧
    parse_hdfc_hdr hdfcRow0Sheet = 20 ∧
    find_header_row iciciRow0Sheet iciciKeywords 80 = some 0 ∧
    parse_icici_hdr iciciRow0Sheet = 12 := by decide

/-- C3: the four separator variants of December 31 2023 all coerce to the
same calendar date through the ordered format list. -/
theorem parse_date_dec31_all_forms :
    parse_date (some "31,12,2023") = some ⟨2023, 12, 31⟩ ∧
    parse_date (some "31-12-2023") = some ⟨2023, 12, 31⟩ ∧
    parse_date (some "31/12/2023") = some ⟨2023, 12, 31⟩ ∧
    parse_date (some "2023-12-31") = some ⟨2023, 12, 31⟩ := by decide

/-- The pd.DataFrame constructor succeeds as soon as at least one of the
six values is a real column, and every field whose value is the scalar
None is NaN on every row. -/
theorem mkCanonFrame_ok (c1 c2 c3 c4 c5 c6 : Option (List Cell))
    (h : ¬(c1 = none ∧ c2 = none ∧ c3 = none ∧ c4 = none ∧ c5 = none ∧ c6 = none)) :
    ∃ rows, mkCanonFrame c1 c2 c3 c4 c5 c6 = .ok rows ∧
      (c1 = none → ∀ r ∈ rows, r.dateC = none) ∧
      (c2 = none → ∀ r ∈ rows, r.descC = none) ∧
      (c3 = none → ∀ r ∈ rows, r.refC = none) ∧
      (c4 = none → ∀ r ∈ rows, r.debitC = none) ∧
      (c5 = none → ∀ r ∈ rows, r.creditC = none) ∧
      (c6 = none → ∀ r ∈ rows, r.balanceC = none) := by
  have hfc : ∃ fc, [c1, c2, c3, c4, c5, c6].findSome? id = some fc := by
    cases hx : [c1, c2, c3, c4, c5, c6].findSome? id with
    | some fc => exact ⟨fc, rfl⟩
    | none =>
      rw [List.findSome?_eq_none_iff] at hx
      exact absurd ⟨hx c1 (by simp), hx c2 (by simp), hx c3 (by simp),
        hx c4 (by simp), hx c5 (by simp), hx c6 (by simp)⟩ h
  obtain ⟨fc, hfc⟩ := hfc
  refine ⟨(List.range fc.length).map (fun i =>
      ⟨colVal c1 i, colVal c2 i, colVal c3 i, colVal c4 i, colVal c5 i, colVal c6 i⟩),
    ?_, ?_, ?_, ?_, ?_, ?_, ?_⟩
  · unfold mkCanonFrame
    rw [hfc]
  all_goals
    intro hk
    subst hk
    intro r hr
    rcases List.mem_map.1 hr with ⟨i, hi, rfl⟩
    rfl

/-- A sheet whose first-row labels match none of the fallback synonyms. -/
def noiseSheet : Sheet := [[some "foo", some "bar"], [some "1", some "2"]]

/-- C2 counterexample: when all six canonical fields resolve to no column,
parse_fallback does not return a frame with the fields absent; the
pd.DataFrame constructor raises because every value is the scalar None. -/
theorem parse_fallback_all_unresolved_raises :
    parse_fallback noiseSheet "UNKNOWN" =
      .error "ValueError: If using all scalar values, you must pass an index" := rfl

/-- C2 amended: provided at least one canonical field resolves to a real
column of the frame read with the sheet's first row as header,
parse_fallback returns the six-field frame without raising and every field
that resolved to no column is absent on every row. -/
theorem parse_fallback_partial (sheet : Sheet) (bank : String)
    (h : fbDateCol sheet ≠ none ∨ fbDescCol sheet ≠ none ∨ fbRefCol sheet ≠ none ∨
         fbDebitCol sheet ≠ none ∨ fbCreditCol sheet ≠ none ∨ fbBalanceCol sheet ≠ none) :
    ∃ rows, parse_fallback sheet bank = .ok rows ∧
      (fbDateCol sheet = none → ∀ r ∈ rows, r.dateC = none) ∧
      (fbDescCol sheet = none → ∀ r ∈ rows, r.descC = none) ∧
      (fbRefCol sheet = none → ∀ r ∈ rows, r.refC = none) ∧
      (fbDebitCol sheet = none → ∀ r ∈ rows, r.debitC = none) ∧
      (fbCreditCol sheet = none → ∀ r ∈ rows, r.creditC = none) ∧
      (fbBalanceCol sheet = none → ∀ r ∈ rows, r.balanceC = none) := by
  unfold parse_fallback
  apply mkCanonFrame_ok
  intro hall
  obtain ⟨e1, e2, e3, e4, e5, e6⟩ := hall
  rcases h with h | h | h | h | h | h
  · exact h e1
  · exact h e2
  · exact h e3
  · exact h e4
  · exact h e5
  · exact h e6

/-- A sheet on which the fallback resolves only the Date column. -/
def partialSheet : Sheet := [[some "Date", some "Amount"], [some "01/01/2024", some "5"]]

/-- Witness for the amended C2 at a concrete sheet with only a Date
column resolved. -/
theorem parse_fallback_partial_witness :
    (fbDateCol partialSheet ≠ none ∨ fbDescCol partialSheet ≠ none ∨
     fbRefCol partialSheet ≠ none ∨ fbDebitCol partialSheet ≠ none ∨
     fbCreditCol partialSheet ≠ none ∨ fbBalanceCol partialSheet ≠ none) ∧
    (∃ rows, parse_fallback partialSheet "UNKNOWN" = .ok rows ∧
      (fbDateCol partialSheet = none → ∀ r ∈ rows, r.dateC = none) ∧
      (fbDescCol partialSheet = none → ∀ r ∈ rows, r.descC = none) ∧
      (fbRefCol partialSheet = none → ∀ r ∈ rows, r.refC = none) ∧
      (fbDebitCol partialSheet = none → ∀ r ∈ rows, r.debitC = none) ∧
      (fbCreditCol partialSheet = none → ∀ r ∈ rows, r.creditC = none) ∧
      (fbBalanceCol partialSheet = none → ∀ r ∈ rows, r.balanceC = none)) :=
  ⟨by decide, parse_fallback_partial partialSheet "UNKNOWN" (by decide)⟩

/-- Structure of a successful parse_file_core run: the adapter dispatch
succeeded, the retained rows are the coerced rows with a present date, and
the log fields record the path, the bank and the counts. -/
theorem parse_file_core_ok (p b : String) (sheet : Sheet) (res : List TxRow × LogEntry)
    (h : parse_file_core p b sheet = .ok res) :
    ∃ df, adapterResult b sheet = .ok df ∧
      res.1 = (df.map (coerceRow b)).filter (fun r => r.date.isSome) ∧
      res.2.file = p ∧ res.2.bank = b ∧
      res.2.rowsParsed = res.1.length ∧
      res.2.rowsDropped = (df.map (coerceRow b)).length - res.1.length := by
  unfold parse_file_core at h
  cases hh : adapterResult b sheet with
  | error e =>
    rw [hh] at h
    exact absurd h (by simp)
  | ok df =>
    rw [hh] at h
    injection h with h
    subst h
    exact ⟨df, rfl, rfl, rfl, rfl, rfl, rfl⟩

/-- C6: every row of a frame returned by parse_file carries the bank
classified once from the (ensure_xlsx normalized) file name, regardless of
which adapter produced the frame. -/
theorem parse_file_bank_stamp (path : String) (sheet : Sheet) (res : List TxRow × LogEntry)
    (h : parse_file path sheet = .ok res) :
    ∀ row ∈ res.1, row.bank = detect_bank (ensure_xlsx path) := by
  intro row hrow
  unfold parse_file at h
  rcases parse_file_core_ok _ _ _ _ h with ⟨df, -, h1, -⟩
  rw [h1] at hrow
  rcases List.mem_map.1 (List.mem_filter.1 hrow).1 with ⟨r, -, rfl⟩
  rfl

/-- Witness for C6: the concrete ICICI run, where the retained row is
stamped with the classification of the file name. -/
theorem parse_file_bank_stamp_witness :
    parse_file "icici_statement.xlsx" iciciSheet = .ok ([iciciRow], iciciLog) ∧
    iciciRow.bank = detect_bank (ensure_xlsx "icici_statement.xlsx") :=
  ⟨rfl, parse_file_bank_stamp "icici_statement.xlsx" iciciSheet ([iciciRow], iciciLog) rfl
    iciciRow (List.mem_singleton.2 rfl)⟩

/-- C9: parse_file drops exactly the rows whose Date coerced to absent, so
every returned row has a present date, RowsParsed is the number of
retained rows, and RowsParsed plus RowsDropped is the adapter's row
count. -/
theorem parse_file_drop_spec (path : String) (sheet : Sheet) (res : List TxRow × LogEntry)
    (h : parse_file path sheet = .ok res) :
    (∀ row ∈ res.1, (row.date).isSome = true) ∧
    res.2.rowsParsed = res.1.length ∧
    ∃ df, adapterResult (detect_bank (ensure_xlsx path)) sheet = .ok df ∧
      res.1 = (df.map (coerceRow (detect_bank (ensure_xlsx path)))).filter
        (fun r => r.date.isSome) ∧
      res.2.rowsParsed + res.2.rowsDropped = df.length := by
  unfold parse_file at h
  rcases parse_file_core_ok _ _ _ _ h with ⟨df, hok, h1, -, -, h4, h5⟩
  refine ⟨?_, h4, df, hok, h1, ?_⟩
  · intro row hrow
    rw [h1] at hrow
    exact (List.mem_filter.1 hrow).2
  · have hle : res.1.length ≤
        (df.map (coerceRow (detect_bank (ensure_xlsx path)))).length := by
      rw [h1]
      exact List.length_filter_le _ _
    rw [h4, h5]
    rw [List.length_map] at hle ⊢
    omega

/-- Witness for C9: in the concrete ICICI run one row is retained, one
footer row is dropped, and the log counts match. -/
theorem parse_file_drop_spec_witness :
    parse_file "icici_statement.xlsx" iciciSheet = .ok ([iciciRow], iciciLog) ∧
    iciciLog.rowsParsed = [iciciRow].length :=
  ⟨rfl, (parse_file_drop_spec "icici_statement.xlsx" iciciSheet ([iciciRow], iciciLog) rfl).2.1⟩

/-- A letter is never equal to a concrete non-letter character. -/
theorem isAlpha_ne (c x : Char) (h : c.isAlpha = true) (hx : x.isAlpha = false) : c ≠ x := by
  intro hcx
  rw [hcx, hx] at h
  exact absurd h (by simp)

/-- A letter is not a digit. -/
theorem isAlpha_not_digit (c : Char) (h : c.isAlpha = true) : c.isDigit = false := by
  cases hx : c.isDigit with
  | false => rfl
  | true =>
    exfalso
    have hd3 : 48 ≤ c.val ∧ c.val ≤ 57 := by
      simpa [Char.isDigit, Bool.and_eq_true, decide_eq_true_eq, ge_iff_le] using hx
    have ha : (65 ≤ c.val ∧ c.val ≤ 90) ∨ (97 ≤ c.val ∧ c.val ≤ 122) := by
      simpa [Char.isAlpha, Char.isUpper, Char.isLower, Bool.or_eq_true, Bool.and_eq_true,
        decide_eq_true_eq, ge_iff_le] using h
    rcases ha with ⟨ha1, -⟩ | ⟨ha1, -⟩
    · exact absurd (UInt32.le_trans ha1 hd3.2) (by decide)
    · exact absurd (UInt32.le_trans ha1 hd3.2) (by decide)

/-- A letter is not Python whitespace. -/
theorem isAlpha_not_ws (c : Char) (h : c.isAlpha = true) : isPyWs c = false := by
  have w1 : (c == ' ') = false := beq_eq_false_iff_ne.2 (isAlpha_ne c ' ' h (by decide))
  have w2 : (c == '\t') = false := beq_eq_false_iff_ne.2 (isAlpha_ne c '\t' h (by decide))
  have w3 : (c == '\n') = false := beq_eq_false_iff_ne.2 (isAlpha_ne c '\n' h (by decide))
  have w4 : (c == '\r') = false := beq_eq_false_iff_ne.2 (isAlpha_ne c '\r' h (by decide))
  have w5 : (c == '\x0b') = false := beq_eq_false_iff_ne.2 (isAlpha_ne c '\x0b' h (by decide))
  have w6 : (c == '\x0c') = false := beq_eq_false_iff_ne.2 (isAlpha_ne c '\x0c' h (by decide))
  simp [isPyWs, w1, w2, w3, w4, w5, w6]

/-- dropWhile is the identity when no element satisfies the test. -/
theorem dropWhile_all_false {α : Type} (p : α → Bool) (l : List α)
    (h : ∀ c ∈ l, p c = false) : l.dropWhile p = l := by
  cases l with
  | nil => rfl
  | cons a m =>
    rw [List.dropWhile_cons, h a (List.mem_cons_self a m)]
    simp

/-- Both-ends stripping is the identity when the first and last characters
fail the test. -/
theorem stripEnds_eq_self (p : Char → Bool) (l : List Char)
    (h1 : ∀ c, l.head? = some c → p c = false)
    (h2 : ∀ c, l.getLast? = some c → p c = false) :
    ((l.dropWhile p).reverse.dropWhile p).reverse = l := by
  cases l with
  | nil => rfl
  | cons a m =>
    have ha : p a = false := h1 a rfl
    rw [List.dropWhile_cons, ha]
    simp only [Bool.false_eq_true, if_false]
    rcases hrev : (a :: m).reverse with _ | ⟨r, R⟩
    · exact absurd hrev (by simp)
    · have hr : p r = false := by
        apply h2
        rw [← List.head?_reverse, hrev]
        rfl
      rw [List.dropWhile_cons, hr]
      simp only [Bool.false_eq_true, if_false]
      rw [← hrev, List.reverse_reverse]

/-- stripWsL is the identity on all-letter text. -/
theorem stripWsL_letters (l : List Char) (h : ∀ c ∈ l, c.isAlpha = true) :
    stripWsL l = l := by
  unfold stripWsL
  rw [dropWhile_all_false _ _ (fun c hc => isAlpha_not_ws c (h c hc))]
  rw [dropWhile_all_false _ _ (fun c hc => isAlpha_not_ws c (h c (List.mem_reverse.1 hc)))]
  exact List.reverse_reverse l

/-- removePat2 only deletes characters, so its result is a sublist. -/
theorem removePat2_sublist (a b : Char) : ∀ l : List Char, List.Sublist (removePat2 a b l) l
  | [] => by simp [removePat2]
  | [c] => by simp [removePat2]
  | c :: d :: rest => by
    rw [removePat2]
    by_cases h : c = a ∧ d = b
    · rw [if_pos h]
      exact ((removePat2_sublist a b rest).trans (List.sublist_cons_self d rest)).trans
        (List.sublist_cons_self c (d :: rest))
    · rw [if_neg h]
      exact List.Sublist.cons₂ c (removePat2_sublist a b (d :: rest))

/-- Marker stripping only deletes characters. -/
theorem stripMarkers_sublist (l : List Char) : List.Sublist (stripMarkers l) l :=
  ((removePat2_sublist 'C' 'r' _).trans (removePat2_sublist 'C' 'R' _)).trans
    (removePat2_sublist 'D' 'r' l)

/-- The float parser fails on all-letter text other than the infinity and
nan words. -/
theorem pyFloatL_letters (t : List Char) (ht : ∀ c ∈ t, c.isAlpha = true)
    (h1 : lowerL t ≠ "inf".data) (h2 : lowerL t ≠ "infinity".data)
    (h3 : lowerL t ≠ "nan".data) :
    pyFloatL t = none := by
  have hstrip : stripWsL t = t := stripWsL_letters t ht
  cases t with
  | nil => rfl
  | cons c rest =>
    have hca : c.isAlpha = true := ht c (List.mem_cons_self c rest)
    have hsign : parseSign (c :: rest) = (false, c :: rest) := by
      simp only [parseSign]
      rw [if_neg (isAlpha_ne c '-' hca (by decide)), if_neg (isAlpha_ne c '+' hca (by decide))]
    have hdr : digRunAux (c :: rest) 0 0 = (0, 0, c :: rest) := by
      rw [digRunAux.eq_def]
      dsimp only
      rw [isAlpha_not_digit c hca]
      simp
    have hdq : parseDecimalQ (c :: rest) = none := by
      unfold parseDecimalQ
      rw [hdr]
      simp only [parseFracPart]
      rw [if_neg (isAlpha_ne c '.' hca (by decide))]
      simp only [parseDecimalFin]
      cases parseExpPart (c :: rest) <;> simp
    unfold pyFloatL
    rw [hstrip, hsign]
    simp only [pyFloatCore]
    rw [if_neg (by push_neg; exact ⟨h1, h2⟩), if_neg h3, hdq]

/-- C7: coercion failure is silent; NaN, empty or whitespace-only text,
and non-numeric (all-letter, other than the float words inf, infinity and
nan) text all coerce to absent, and to_num, being a total function into an
option type, never raises. -/
theorem to_num_silent_absent :
    to_num (none : Cell) = none ∧
    (∀ s : String, (∀ c ∈ s.data, isPyWs c = true) → to_num (some s) = none) ∧
    (∀ s : String, (∀ c ∈ s.data, c.isAlpha = true) →
      lowerL (stripMarkers s.data) ≠ "inf".data →
      lowerL (stripMarkers s.data) ≠ "infinity".data →
      lowerL (stripMarkers s.data) ≠ "nan".data →
      to_num (some s) = none) := by
  refine ⟨rfl, ?_, ?_⟩
  · intro s hs
    have hdw : s.data.dropWhile isPyWs = [] := List.dropWhile_eq_nil_iff.2 hs
    have hstrip : stripWsL s.data = [] := by
      unfold stripWsL
      rw [hdw]
      rfl
    show to_num_tail (removeCommas (stripWsL s.data)) = none
    rw [hstrip]
    rfl
  · intro s hs h1 h2 h3
    have hstrip : stripWsL s.data = s.data := stripWsL_letters s.data hs
    have hrc : removeCommas s.data = s.data := by
      unfold removeCommas
      refine List.filter_eq_self.2 ?_
      intro a ha
      rw [beq_eq_false_iff_ne.2 (isAlpha_ne a ',' (hs a ha) (by decide))]
      rfl
    show to_num_tail (removeCommas (stripWsL s.data)) = none
    rw [hstrip, hrc]
    cases hsd : s.data with
    | nil => rfl
    | cons c rest =>
      have hsall : ∀ x ∈ c :: rest, Char.isAlpha x = true := by
        rw [← hsd]
        exact hs
      have hca := hsall c (List.mem_cons_self c rest)
      unfold to_num_tail
      rw [if_neg (by simp)]
      have hpf : parenFormB (c :: rest) = false := by
        simp only [parenFormB]
        rw [beq_eq_false_iff_ne.2 (isAlpha_ne c '(' hca (by decide))]
        simp
      rw [hpf]
      simp only [Bool.false_eq_true, if_false]
      have hsub : ∀ x ∈ stripMarkers (c :: rest), Char.isAlpha x = true :=
        fun x hx => hsall x ((stripMarkers_sublist (c :: rest)).subset hx)
      have hms : stripWsL (stripMarkers (c :: rest)) = stripMarkers (c :: rest) :=
        stripWsL_letters _ hsub
      rw [hms]
      rw [hsd] at h1 h2 h3
      rw [pyFloatL_letters _ hsub h1 h2 h3]

/-- Witness for C7 at whitespace-only and all-letter inputs. -/
theorem to_num_silent_absent_witness :
    (∀ c ∈ (" \t ").data, isPyWs c = true) ∧ to_num (some " \t ") = none ∧
    (∀ c ∈ ("abc").data, c.isAlpha = true) ∧
    lowerL (stripMarkers ("abc").data) ≠ "inf".data ∧
    lowerL (stripMarkers ("abc").data) ≠ "infinity".data ∧
    lowerL (stripMarkers ("abc").data) ≠ "nan".data ∧
    to_num (some "abc") = none :=
  ⟨by decide, to_num_silent_absent.2.1 " \t " (by decide), by decide, by decide, by decide,
   by decide, to_num_silent_absent.2.2 "abc" (by decide) (by decide) (by decide) (by decide)⟩

/-- str.strip("()") on a single parenthesized wrap of paren-free text
yields exactly the inner text. -/
theorem stripParenL_wrap (M : List Char) (hM : ∀ c ∈ M, isParenC c = false) :
    stripParenL ('(' :: (M ++ [')'])) = M := by
  cases M with
  | nil => rfl
  | cons m0 M2 =>
    have hm0 : isParenC m0 = false := hM m0 (List.mem_cons_self m0 M2)
    unfold stripParenL
    rw [List.dropWhile_cons_of_pos (by rfl)]
    rw [List.cons_append, List.dropWhile_cons_of_neg (by rw [hm0]; simp)]
    rw [← List.cons_append, List.reverse_append]
    simp only [List.reverse_cons, List.reverse_nil, List.nil_append, List.singleton_append]
    rw [List.dropWhile_cons_of_pos (by rfl)]
    rw [dropWhile_all_false _ _ (fun c hc => hM c (by
      rcases List.mem_append.1 hc with h | h
      · exact List.mem_cons_of_mem m0 (List.mem_reverse.1 h)
      · exact List.mem_cons.2 (Or.inl (by simpa using h))))]
    simp

/-- Evaluation of to_num on a parenthesized wrap of paren-free,
newline-free text: the text between the parentheses (commas removed) is
parsed as a float, and a successful parse is negated while a failed parse
yields absent; no marker stripping happens on this path. -/
theorem to_num_paren_eval (N : String)
    (h1 : ∀ c ∈ N.data, c ≠ '(' ∧ c ≠ ')' ∧ c ≠ '\n') :
    to_num (some ("(" ++ N ++ ")")) =
      match pyFloatL (removeCommas N.data) with
      | some v => some (negVal v)
      | none => none := by
  have hdata : ("(" ++ N ++ ")").data = '(' :: (N.data ++ [')']) := by
    rw [String.data_append, String.data_append]
    rfl
  have hM : ∀ c ∈ removeCommas N.data, isParenC c = false := by
    intro c hc
    rcases h1 c (List.mem_of_mem_filter hc) with ⟨hc1, hc2, -⟩
    simp [isParenC, beq_eq_false_iff_ne.2 hc1, beq_eq_false_iff_ne.2 hc2]
  have hstrip : stripWsL ('(' :: (N.data ++ [')'])) = '(' :: (N.data ++ [')']) := by
    refine stripEnds_eq_self isPyWs _ ?_ ?_
    · intro c hc
      injection hc with hc
      rw [← hc]
      rfl
    · intro c hc
      rw [show ('(' :: (N.data ++ [')'])) = ('(' :: N.data) ++ [')'] from rfl,
        List.getLast?_concat] at hc
      injection hc with hc
      rw [← hc]
      rfl
  have hrc : removeCommas ('(' :: (N.data ++ [')'])) =
      '(' :: (removeCommas N.data ++ [')']) := by
    unfold removeCommas
    rw [List.filter_cons, List.filter_append]
    rfl
  have hpf : parenFormB ('(' :: (removeCommas N.data ++ [')'])) = true := by
    simp only [parenFormB]
    rw [show ('(' == '(') = true from rfl, List.getLast?_concat, List.dropLast_concat]
    have hnl : (removeCommas N.data).all (fun c2 => !(c2 == '\n')) = true := by
      rw [List.all_eq_true]
      intro c hc
      rcases h1 c (List.mem_of_mem_filter hc) with ⟨-, -, hc3⟩
      rw [beq_eq_false_iff_ne.2 hc3]
      rfl
    rw [hnl]
    simp
  show to_num_tail (removeCommas (stripWsL ("(" ++ N ++ ")").data)) = _
  rw [hdata, hstrip, hrc]
  unfold to_num_tail
  rw [if_neg (by simp), hpf]
  simp only [if_true]
  rw [show ('(' :: (removeCommas N.data ++ [')'])) = '(' :: (removeCommas N.data ++ [')'])
    from rfl]
  rw [stripParenL_wrap _ hM]

/-- C8: a parenthesized numeric text coerces to the negated value: for
every inner text without parentheses or newline whose comma-free form
parses as a finite float q, to_num of the wrapped text is minus q. -/
theorem to_num_paren_negative (N : String) (q : ℚ)
    (h1 : ∀ c ∈ N.data, c ≠ '(' ∧ c ≠ ')' ∧ c ≠ '\n')
    (h2 : pyFloatL (removeCommas N.data) = some (.finite q)) :
    to_num (some ("(" ++ N ++ ")")) = some (.finite (-q)) := by
  rw [to_num_paren_eval N h1, h2]
  rfl

/-- Witness for C8 at the accounting negative (123.45). -/
theorem to_num_paren_negative_witness :
    (∀ c ∈ ("123.45").data, c ≠ '(' ∧ c ≠ ')' ∧ c ≠ '\n') ∧
    pyFloatL (removeCommas ("123.45").data) = some (.finite (mkRat 2469 20)) ∧
    to_num (some ("(" ++ "123.45" ++ ")")) = some (.finite (-(mkRat 2469 20))) :=
  ⟨by decide, by decide, to_num_paren_negative "123.45" (mkRat 2469 20) (by decide) (by decide)⟩

/-- C10: marker stripping happens only on the non-parenthesized path, so a
parenthesized text whose inner part fails the float parse (for example
because of a Dr or Cr marker) coerces to absent rather than a negative
value, while comma removal happens before the parenthesis check, so a
parenthesized thousands-separated number still negates. -/
theorem to_num_paren_marker_absent :
    (∀ N : String, (∀ c ∈ N.data, c ≠ '(' ∧ c ≠ ')' ∧ c ≠ '\n') →
      pyFloatL (removeCommas N.data) = none →
      to_num (some ("(" ++ N ++ ")")) = none) ∧
    to_num (some "(1,234.50)") = some (.finite (-(mkRat 2469 2))) := by
  constructor
  · intro N h1 h2
    rw [to_num_paren_eval N h1, h2]
  · decide

/-- Witness for C10 at the parenthesized marker text (100 Dr). -/
theorem to_num_paren_marker_absent_witness :
    (∀ c ∈ ("100 Dr").data, c ≠ '(' ∧ c ≠ ')' ∧ c ≠ '\n') ∧
    pyFloatL (removeCommas ("100 Dr").data) = none ∧
    to_num (some ("(" ++ "100 Dr" ++ ")")) = none :=
  ⟨by decide, by decide, to_num_paren_marker_absent.1 "100 Dr" (by decide) (by decide)⟩

/-- Witness for C4: the characterization applied at the concrete
two-column frame returns the first column for the first synonym. -/
theorem pick_column_spec_witness :
    pick_column ["Txn Date", "Value Date"] ["date"] = some "Txn Date" :=
  (pick_column_spec ["Txn Date", "Value Date"] ["date"]).2.2

/-- Witness for C5: the characterization applied at the concrete sheet
whose only qualifying row is row 3. -/
theorem find_header_row_spec_witness :
    find_header_row hdrExampleSheet hdfcKeywords 60 = some 3 :=
  (find_header_row_spec hdrExampleSheet hdfcKeywords 60).2.2

end BankParser
